import Mathlib

/-!
Verification of the go-app `Handler` resource-serving and caching subsystem
(`pkg/app/http.go`): one-time initialization, ETag handling, version-path
stripping, PWA/proxy caches, proxy-resource table construction, service-worker
asset-list generation, and HTTP resource-descriptor parsing.

Go strings are modelled as Lean `String`, with the `strings`-package operations
re-implemented by structural recursion over the underlying character list so
that all definitions evaluate by kernel reduction. Byte-wise comparison of Go
strings agrees with code-point comparison of their characters because UTF-8
preserves code-point order.
-/

namespace GoApp

/-! ### Model of the Go `strings` operations used by the handler -/

/-- Go `strings.Compare(a, b) < 0` on the character lists: lexicographic
strict-less, byte/code-point wise. -/
def charListLt : List Char → List Char → Bool
  | [], [] => false
  | [], _ :: _ => true
  | _ :: _, [] => false
  | a :: as, b :: bs => if a = b then charListLt as bs else decide (a < b)

/-- Go `strings.Compare(a, b) < 0`. -/
def strLess (a b : String) : Bool := charListLt a.data b.data

/-- The sortedness relation produced by Go `sort.Slice` with the comparator
`strings.Compare(x[a], x[b]) < 0`: adjacent elements satisfy "not greater". -/
def strLeR (a b : String) : Prop := strLess b a = false

instance : DecidableRel strLeR := fun a b =>
  inferInstanceAs (Decidable (strLess b a = false))

/-- Go `strings.HasPrefix`. -/
def strHasPre (s p : String) : Bool := List.isPrefixOf p.data s.data

/-- Go `strings.TrimPrefix`: drops the prefix when present, else identity. -/
def strTrimPre (s p : String) : String :=
  if strHasPre s p then String.mk (s.data.drop p.data.length) else s

/-- Go `strings.ToLower` (ASCII case folding; only ASCII arises here). -/
def strToLower (s : String) : String := String.mk (s.data.map Char.toLower)

/-- Go `strings.TrimSpace`: trims leading and trailing whitespace. -/
def strTrim (s : String) : String :=
  String.mk (((s.data.dropWhile Char.isWhitespace).reverse.dropWhile
      Char.isWhitespace).reverse)

/-- Worker for `strSplitOnSpace`, accumulating the current field reversed. -/
def splitOnSpaceAux : List Char → List Char → List String
  | [], acc => [String.mk acc.reverse]
  | c :: cs, acc =>
    if c = ' ' then String.mk acc.reverse :: splitOnSpaceAux cs []
    else splitOnSpaceAux cs (c :: acc)

/-- Go `strings.Split(s, " ")`: splits on each single space, keeping empty
fields (and yielding `[""]` on the empty string). -/
def strSplitOnSpace (s : String) : List String := splitOnSpaceAux s.data []

/-! ### Order facts for the sort comparator -/

theorem charListLt_irrefl (l : List Char) : charListLt l l = false := by
  induction l with
  | nil => rfl
  | cons a as ih => simp [charListLt, ih]

theorem charListLt_trans {a b c : List Char} (h1 : charListLt a b = true)
    (h2 : charListLt b c = true) : charListLt a c = true := by
  induction a generalizing b c with
  | nil =>
    cases c with
    | nil =>
      cases b with
      | nil => exact h1
      | cons x xs => simp [charListLt] at h2
    | cons y ys => rfl
  | cons x xs ih =>
    cases b with
    | nil => simp [charListLt] at h1
    | cons y ys =>
      cases c with
      | nil => simp [charListLt] at h2
      | cons z zs =>
        simp only [charListLt] at h1 h2 ⊢
        by_cases hxy : x = y
        · subst hxy
          simp only [if_pos rfl] at h1
          by_cases hyz : x = z
          · subst hyz; simp only [if_pos rfl] at h2 ⊢; exact ih h1 h2
          · simp only [if_neg hyz] at h2 ⊢; exact h2
        · simp only [if_neg hxy] at h1
          by_cases hyz : y = z
          · subst hyz; simp only [if_neg hxy]; exact h1
          · simp only [if_neg hyz] at h2
            have hlt : x < z :=
              lt_trans (of_decide_eq_true h1) (of_decide_eq_true h2)
            have hne : x ≠ z := ne_of_lt hlt
            simp [if_neg hne, hlt]

theorem charListLt_connex {a b : List Char} (h1 : charListLt a b = false)
    (h2 : charListLt b a = false) : a = b := by
  induction a generalizing b with
  | nil =>
    cases b with
    | nil => rfl
    | cons y ys => simp [charListLt] at h1
  | cons x xs ih =>
    cases b with
    | nil => simp [charListLt] at h2
    | cons y ys =>
      simp only [charListLt] at h1 h2
      by_cases hxy : x = y
      · subst hxy
        simp only [if_pos rfl] at h1 h2
        rw [ih h1 h2]
      · simp only [if_neg hxy] at h1
        have hyx : y ≠ x := fun h => hxy h.symm
        simp only [if_neg hyx] at h2
        have h1n : ¬ x < y := of_decide_eq_false h1
        have h2n : ¬ y < x := of_decide_eq_false h2
        rcases lt_or_gt_of_ne hxy with h | h
        · exact absurd h h1n
        · exact absurd h h2n

instance : IsTrans String strLeR := by
  constructor
  intro a b c h1 h2
  show strLess c a = false
  by_contra hca
  have hca' : charListLt c.data a.data = true := by
    cases h : strLess c a with
    | false => exact absurd h hca
    | true => exact h
  have hba : charListLt b.data a.data = false := h1
  have hcb : charListLt c.data b.data = false := h2
  cases hab : charListLt a.data b.data with
  | true =>
    have : charListLt c.data b.data = true := charListLt_trans hca' hab
    rw [this] at hcb; exact Bool.noConfusion hcb
  | false =>
    have hdata : a.data = b.data := charListLt_connex hab hba
    have : charListLt c.data b.data = true := by rw [← hdata]; exact hca'
    rw [this] at hcb; exact Bool.noConfusion hcb

instance : IsTotal String strLeR := by
  constructor
  intro a b
  by_cases hba : charListLt b.data a.data = false
  · exact Or.inl hba
  · right
    show charListLt a.data b.data = false
    have hba' : charListLt b.data a.data = true := by
      cases h : charListLt b.data a.data with
      | false => exact absurd h hba
      | true => rfl
    by_contra hab
    have hab' : charListLt a.data b.data = true := by
      cases h : charListLt a.data b.data with
      | false => exact absurd h hab
      | true => rfl
    have : charListLt a.data a.data = true := charListLt_trans hab' hba'
    rw [charListLt_irrefl] at this
    exact Bool.noConfusion this

instance : IsAntisymm String strLeR := by
  constructor
  intro a b h1 h2
  exact String.ext (charListLt_connex h2 h1)

/-! ### `httpResource` and `parseHTTPResource` -/

/-- The `httpResource` struct: URL plus optional loading mode and cross-origin
policy parsed from a space-separated configuration string. -/
structure httpResource where
  URL : String
  LoadingMode : String
  CrossOrigin : String
deriving DecidableEq, Repr

/-- One iteration of the `parseHTTPResource` loop body over a raw token. -/
def parseHTTPResourceToken (res : httpResource) (tok : String) : httpResource :=
  let elem := strTrim tok
  if elem = "" then res
  else
    let elem := strToLower elem
    if elem = "crossorigin" then { res with CrossOrigin := "true" }
    else if strHasPre elem "crossorigin=" then
      { res with CrossOrigin := strTrimPre elem "crossorigin=" }
    else if elem = "defer" then { res with LoadingMode := "defer" }
    else if elem = "async" then { res with LoadingMode := "async" }
    else { res with URL := elem }

/-- The `parseHTTPResource` loop over the already-split token list. -/
def parseHTTPResourceTokens (ts : List String) : httpResource :=
  ts.foldl parseHTTPResourceToken { URL := "", LoadingMode := "", CrossOrigin := "" }

/-- `parseHTTPResource`: split on spaces, then classify each token. -/
def parseHTTPResource (v : String) : httpResource :=
  parseHTTPResourceTokens (strSplitOnSpace v)

/-! ### `Icon` and `initIcon` -/

/-- The four icon configuration fields of `Handler.Icon`. -/
structure Icon where
  Default : String
  Large : String
  SVG : String
  Maskable : String
deriving DecidableEq, Repr

/-- Bundled placeholder PNG icon URL used by `initIcon`. -/
def placeholderIconPNG : String :=
  "https://raw.githubusercontent.com/maxence-charriere/go-app/master/docs/web/icon.png"

/-- Bundled placeholder SVG icon URL used by `initIcon`. -/
def placeholderIconSVG : String :=
  "https://raw.githubusercontent.com/maxence-charriere/go-app/master/docs/web/icon.svg"

/-- `Handler.initIcon`: default and large fall back together to the bundled
PNG placeholder, maskable falls back to default, SVG to the SVG placeholder. -/
def initIcon (i : Icon) : Icon :=
  let i := if i.Default = "" then
    { i with Default := placeholderIconPNG, Large := placeholderIconPNG } else i
  let i := if i.Maskable = "" then { i with Maskable := i.Default } else i
  if i.SVG = "" then { i with SVG := placeholderIconSVG } else i

/-! ### Proxy resources and `initProxyResources` -/

/-- A `ProxyResource` configuration entry: public path and internal path. -/
structure ProxyResource where
  Path : String
  ResourcePath : String
deriving DecidableEq, Repr

/-- The reserved internal PWA paths listed in the `initProxyResources` switch. -/
def reservedPaths : List String :=
  ["/wasm_exec.js", "/goapp.js", "/app.js", "/app-worker.js", "/manifest.json",
   "/manifest.webmanifest", "/app.css", "/app.wasm", "/goapp.wasm", "/"]

/-- The empty Go map `map[string]ProxyResource`. -/
def proxyMapEmpty : String → Option ProxyResource := fun _ => none

/-- Go map assignment `resources[k] = v` (upsert). -/
def proxyMapSet (m : String → Option ProxyResource) (k : String)
    (v : ProxyResource) : String → Option ProxyResource :=
  fun p => if p = k then some v else m p

/-- One iteration of the `initProxyResources` loop: skip reserved public
paths, keep entries whose public path starts with "/" and whose internal path
starts with "/web/". -/
def addProxyResource (m : String → Option ProxyResource) (r : ProxyResource) :
    String → Option ProxyResource :=
  if r.Path ∈ reservedPaths then m
  else if strHasPre r.Path "/" && strHasPre r.ResourcePath "/web/" then
    proxyMapSet m r.Path r
  else m

/-- The configured part of the proxy-resource table (the loop over
`h.ProxyResources`), before default injection. -/
def configProxyResources (cfg : List ProxyResource) :
    String → Option ProxyResource :=
  cfg.foldl addProxyResource proxyMapEmpty

/-- Inject one default entry only if the public path is not already mapped. -/
def withDefaultEntry (m : String → Option ProxyResource) (path resPath : String) :
    String → Option ProxyResource :=
  if (m path).isSome then m else proxyMapSet m path ⟨path, resPath⟩

/-- `Handler.initProxyResources`: filter configured entries, then inject the
robots/sitemap/ads defaults when absent. -/
def initProxyResources (cfg : List ProxyResource) :
    String → Option ProxyResource :=
  withDefaultEntry
    (withDefaultEntry
      (withDefaultEntry (configProxyResources cfg) "/robots.txt" "/web/robots.txt")
      "/sitemap.xml" "/web/sitemap.xml")
    "/ads.txt" "/web/ads.txt"

/-! ### Memory cache, cache items and serving -/

/-- A cached payload: path identity, content metadata and body bytes. -/
structure cacheItem where
  Path : String
  ContentType : String
  ContentEncoding : String
  Body : List Nat
deriving DecidableEq, Repr

/-- `cacheItem.Len`: the byte length of the payload. -/
def cacheItem.Len (i : cacheItem) : Nat := i.Body.length

/-- Modelled from the spec: the `memoryCache` source file is not under `src/`.
Spec section 3 "Memory Cache": a mapping from path to cache item; `Set` is a
single-entry upsert keyed by the item's path, `Get` a lookup; entries are
never evicted and the capacity hint is only advisory, so the capacity is not
part of the model. -/
def memoryCache : Type := String → Option cacheItem

/-- Modelled from the spec: cache lookup by path. -/
def memoryCache.Get (c : memoryCache) (p : String) : Option cacheItem := c p

/-- Modelled from the spec: cache upsert keyed by the item's path. -/
def memoryCache.Set (c : memoryCache) (i : cacheItem) : memoryCache :=
  fun p => if p = i.Path then some i else c p

/-- Modelled from the spec: a cache holding no entries. -/
def memoryCache.empty : memoryCache := fun _ => none

/-- An HTTP response as observable on the wire: status, the headers this
subsystem sets, and the body bytes. -/
structure HTTPResponse where
  status : Nat
  cacheControl : Option String
  headerETag : Option String
  contentType : Option String
  contentEncoding : Option String
  contentLength : Option Nat
  body : List Nat
deriving DecidableEq, Repr

/-- A response carrying only a status code and no body, as produced by
`w.WriteHeader(status)` followed by `return`. -/
def emptyResponse (status : Nat) : HTTPResponse :=
  { status := status, cacheControl := none, headerETag := none,
    contentType := none, contentEncoding := none, contentLength := none,
    body := [] }

/-- `Handler.serveCachedItem`: content-length and content-type from the item,
content-encoding only when non-empty, status 200, body verbatim. -/
def serveCachedItem (i : cacheItem) : HTTPResponse :=
  { status := 200, cacheControl := none, headerETag := none,
    contentType := some i.ContentType,
    contentEncoding := if i.ContentEncoding = "" then none else some i.ContentEncoding,
    contentLength := some i.Len, body := i.Body }

/-- Result of the upstream `http.Get`: headers, status and the result of
reading the body (`none` models an `io.ReadAll` failure). -/
structure upstreamResponse where
  StatusCode : Nat
  ContentType : String
  ContentEncoding : String
  BodyRead : Option (List Nat)
deriving DecidableEq, Repr

/-- Outcome of the blocking `http.Get` call: transport failure or a response. -/
inductive getResult where
  | failure : getResult
  | success : upstreamResponse → getResult
deriving DecidableEq, Repr

/-- `Handler.serveProxyResource` for a declared proxy resource: serve from the
proxy cache when present; otherwise consult the upstream fetch result,
mapping transport/read failures to 500, non-200 upstream status to 404, and
on success caching and serving the upstream payload. The returned Bool
records whether the upstream GET was issued. -/
def serveProxyResource (cache : memoryCache) (resource : ProxyResource)
    (fetch : getResult) : HTTPResponse × memoryCache × Bool :=
  match cache.Get resource.Path with
  | some i => (serveCachedItem i, cache, false)
  | none =>
    match fetch with
    | getResult.failure => (emptyResponse 500, cache, true)
    | getResult.success res =>
      if res.StatusCode ≠ 200 then (emptyResponse 404, cache, true)
      else
        match res.BodyRead with
        | none => (emptyResponse 500, cache, true)
        | some body =>
          let item : cacheItem :=
            { Path := resource.Path, ContentType := res.ContentType,
              ContentEncoding := res.ContentEncoding, Body := body }
          (serveCachedItem item, cache.Set item, true)

/-! ### Service-worker asset-list generation (`makeAppWorkerJS`) -/

/-- Adding one URL to the resource set `map[string]struct{}`: the contents of
a Go string-keyed set, listed in insertion order. -/
def insertIfAbsent (l : List String) (s : String) : List String :=
  if s ∈ l then l else l ++ [s]

/-- The `setResources` closure of `makeAppWorkerJS`: parse each entry and add
its URL to the set when non-empty. -/
def setResources (acc : List String) (rs : List String) : List String :=
  rs.foldl
    (fun acc r =>
      let res := parseHTTPResource r
      if res.URL = "" then acc else insertIfAbsent acc res.URL)
    acc

/-- The full resource set gathered by `makeAppWorkerJS`, in insertion order:
fixed core assets, then icon URLs, styles, fonts, scripts and declared
cacheable resources. -/
def workerResourceSet (icon : Icon) (styles fonts scripts cacheable : List String) :
    List String :=
  setResources
    (setResources
      (setResources
        (setResources
          (setResources
            (setResources []
              ["/app.css", "/app.js", "/manifest.webmanifest", "/wasm_exec.js",
               "/", "/web/app.wasm"])
            [icon.Default, icon.Large, icon.Maskable])
          styles)
        fonts)
      scripts)
    cacheable

/-- JSON escaping of one character, as in `encoding/json` for the characters
that occur in resource URLs. -/
def jsonEscapeChar (c : Char) : String :=
  if c = '"' then "\\\""
  else if c = '\\' then "\\\\"
  else if c = '\n' then "\\n"
  else if c = '\t' then "\\t"
  else if c = '\r' then "\\r"
  else String.mk [c]

/-- Modelled from the spec: the `jsonString` helper source is not under
`src/`; it JSON-encodes a value, here a list of strings as a JSON array. -/
def jsonString (l : List String) : String :=
  "[" ++ String.intercalate ","
    (l.map (fun s => "\"" ++ String.join (s.data.map jsonEscapeChar) ++ "\"")) ++ "]"

/-- Modelled from the spec: `DefaultAppWorkerJS` and the `text/template`
rendering are not under `src/`; spec section 4.1 says the worker template
substitutes the version string and the JSON-encoded sorted resource list. -/
def renderAppWorkerJS (tmpl version resourcesJSON : String) : String :=
  (tmpl.replace "\x7b\x7b.Version\x7d\x7d" version).replace
    "\x7b\x7b.ResourcesToCache\x7d\x7d" resourcesJSON

/-- `Handler.makeAppWorkerJS`, parametrized by the iteration order in which
the Go runtime enumerates the resource set (any permutation of the set):
resolve every member, sort lexicographically, then render the template. The
sort models `sort.Slice` with comparator `strings.Compare(a, b) < 0`. -/
def makeAppWorkerJS (tmpl version : String) (resolve : String → String)
    (iterationOrder : List String) : String :=
  renderAppWorkerJS tmpl version
    (jsonString (List.insertionSort strLeR (iterationOrder.map resolve)))

/-! ### `ServeHTTP` dispatch -/

/-- The post-init handler state consulted by `ServeHTTP`: version (the ETag is
derived from it), the PWA resource cache, the proxy-resource table, the proxy
cache, the library CSS map, whether the resource resolver is also an
`http.Handler`, and which paths are routed pages. -/
structure HandlerState where
  version : String
  pwaResources : memoryCache
  proxyResources : String → Option ProxyResource
  cachedProxyResources : memoryCache
  libraries : String → Option (List Nat)
  resolverIsHandler : Bool
  routed : String → Bool

/-- `Handler.initVersion`: the ETag is the quoted version string. -/
def HandlerState.etag (h : HandlerState) : String := "\"" ++ h.version ++ "\""

/-- An incoming request: URL path and the If-None-Match header value. -/
structure Request where
  path : String
  ifNoneMatch : String
deriving DecidableEq, Repr

/-- The version-prefix stripping step of `ServeHTTP`: trim "/"+Version from
the path only when the path starts with "/"+Version+"/". -/
def stripVersionPath (version path : String) : String :=
  if strHasPre path ("/" ++ version ++ "/") then
    strTrimPre path ("/" ++ version)
  else path

/-- The alias cases of the `ServeHTTP` switch. -/
def aliasPath (p : String) : String :=
  if p = "/goapp.js" then "/app.js"
  else if p = "/manifest.json" then "/manifest.webmanifest"
  else p

/-- Everything `ServeHTTP` does after the ETag check, given the original
request path and the stripped path. `staticServe` models delegation to the
resource resolver as an `http.Handler` (applied to the path of the request it
receives), `pageServe` models `servePage`, `upstream` models the `http.Get`
by internal resource path, and `resolve` models `Resources.Resolve`. -/
def dispatchPath (h : HandlerState) (staticServe : String → HTTPResponse)
    (pageServe : String → HTTPResponse) (upstream : String → getResult)
    (resolve : String → String) (originalPath strippedPath : String) :
    HTTPResponse × memoryCache :=
  if h.resolverIsHandler && strHasPre strippedPath "/web/" then
    (staticServe originalPath, h.cachedProxyResources)
  else
    let path := aliasPath strippedPath
    if path = "/app.wasm" || path = "/goapp.wasm" then
      if h.resolverIsHandler then
        (staticServe (resolve "/web/app.wasm"), h.cachedProxyResources)
      else (emptyResponse 404, h.cachedProxyResources)
    else
      match h.pwaResources.Get path with
      | some i => (serveCachedItem i, h.cachedProxyResources)
      | none =>
        match h.proxyResources path with
        | some pr =>
          let out := serveProxyResource h.cachedProxyResources pr
            (upstream pr.ResourcePath)
          (out.1, out.2.1)
        | none =>
          match h.libraries path with
          | some lib =>
            ({ status := 200, cacheControl := none, headerETag := none,
               contentType := some "text/css", contentEncoding := none,
               contentLength := some lib.length, body := lib },
             h.cachedProxyResources)
          | none => (pageServe originalPath, h.cachedProxyResources)

/-- `Handler.ServeHTTP` after init, before the always-set headers: the exact
If-None-Match/ETag comparison short-circuits with 304 and no body; otherwise
the version prefix is stripped and the request dispatched. -/
def serveHTTPCore (h : HandlerState) (staticServe : String → HTTPResponse)
    (pageServe : String → HTTPResponse) (upstream : String → getResult)
    (resolve : String → String) (r : Request) : HTTPResponse × memoryCache :=
  if r.ifNoneMatch = h.etag then (emptyResponse 304, h.cachedProxyResources)
  else
    dispatchPath h staticServe pageServe upstream resolve r.path
      (stripVersionPath h.version r.path)

/-- `Handler.ServeHTTP` after init: `Cache-Control: no-cache` and the ETag
header are set on every response before dispatch. -/
def serveHTTP (h : HandlerState) (staticServe : String → HTTPResponse)
    (pageServe : String → HTTPResponse) (upstream : String → getResult)
    (resolve : String → String) (r : Request) : HTTPResponse × memoryCache :=
  let out := serveHTTPCore h staticServe pageServe upstream resolve r
  ({ out.1 with cacheControl := some "no-cache", headerETag := some h.etag },
   out.2)

/-! ### Helper lemmas on the proxy-resource table -/

theorem foldl_addProxyResource_none (cfg : List ProxyResource)
    (m : String → Option ProxyResource) (p : String)
    (hres : p ∈ reservedPaths) (hm : m p = none) :
    cfg.foldl addProxyResource m p = none := by
  induction cfg generalizing m with
  | nil => exact hm
  | cons r rs ih =>
    apply ih
    unfold addProxyResource
    by_cases h : r.Path ∈ reservedPaths
    · simp [h, hm]
    · have hne : p ≠ r.Path := fun he => h (he ▸ hres)
      by_cases h2 : (strHasPre r.Path "/" && strHasPre r.ResourcePath "/web/") = true
      · simp [h, h2, proxyMapSet, hne, hm]
      · simp [h, h2, hm]

theorem foldl_addProxyResource_not_mem (cfg : List ProxyResource) (p : String) :
    ∀ m : String → Option ProxyResource, (∀ r ∈ cfg, r.Path ≠ p) →
      m p = none → cfg.foldl addProxyResource m p = none := by
  induction cfg with
  | nil => intro m _ hm; exact hm
  | cons r rs ih =>
    intro m hcfg hm
    apply ih _ (fun q hq => hcfg q (List.mem_cons_of_mem r hq))
    have hne : p ≠ r.Path := fun he => hcfg r (List.mem_cons_self r rs) he.symm
    unfold addProxyResource
    by_cases h : r.Path ∈ reservedPaths
    · simp [h, hm]
    · by_cases h2 : (strHasPre r.Path "/" && strHasPre r.ResourcePath "/web/") = true
      · simp [h, h2, proxyMapSet, hne, hm]
      · simp [h, h2, hm]

theorem withDefaultEntry_ne (m : String → Option ProxyResource)
    (k res p : String) (hne : p ≠ k) : withDefaultEntry m k res p = m p := by
  unfold withDefaultEntry
  by_cases h : (m k).isSome
  · simp [h]
  · simp [h, proxyMapSet, hne]

theorem withDefaultEntry_some (m : String → Option ProxyResource)
    (k res p : String) (r : ProxyResource) (hs : m p = some r) :
    withDefaultEntry m k res p = some r := by
  by_cases hpk : p = k
  · subst hpk
    unfold withDefaultEntry
    simp [hs]
  · rw [withDefaultEntry_ne m k res p hpk, hs]

theorem withDefaultEntry_none (m : String → Option ProxyResource)
    (k res : String) (hm : m k = none) :
    withDefaultEntry m k res k = some ⟨k, res⟩ := by
  unfold withDefaultEntry
  simp [hm, proxyMapSet]

/-! ### Claim theorems -/

/-- Claim C6: for every configured ProxyResources list, the constructed
proxy-resource table contains no reserved internal PWA path: any configured
entry whose public path equals `/app.js` or any other reserved path is
dropped. -/
theorem claim_C6 (cfg : List ProxyResource) (p : String)
    (hres : p ∈ reservedPaths) : initProxyResources cfg p = none := by
  have h1 : p ≠ "/robots.txt" := by
    intro he; subst he; revert hres; decide
  have h2 : p ≠ "/sitemap.xml" := by
    intro he; subst he; revert hres; decide
  have h3 : p ≠ "/ads.txt" := by
    intro he; subst he; revert hres; decide
  unfold initProxyResources
  rw [withDefaultEntry_ne _ _ _ _ h3, withDefaultEntry_ne _ _ _ _ h2,
      withDefaultEntry_ne _ _ _ _ h1]
  exact foldl_addProxyResource_none cfg proxyMapEmpty p hres rfl

/-- Witness for C6: a configured proxy entry shadowing `/app.js` is dropped. -/
theorem claim_C6_witness :
    "/app.js" ∈ reservedPaths ∧
    initProxyResources [⟨"/app.js", "/web/shadow.js"⟩] "/app.js" = none :=
  ⟨by decide, claim_C6 [⟨"/app.js", "/web/shadow.js"⟩] "/app.js" (by decide)⟩

/-- Claim C7: with no explicit robots/sitemap/ads entries in the
configuration, the table maps exactly those three default paths to
`/web/robots.txt`, `/web/sitemap.xml` and `/web/ads.txt`, and leaves every
other path exactly as the configured pass produced it; and a default never
overrides an entry already present, so explicit configuration wins. -/
theorem claim_C7 :
    (∀ cfg : List ProxyResource,
      (∀ r ∈ cfg, r.Path ≠ "/robots.txt" ∧ r.Path ≠ "/sitemap.xml" ∧
        r.Path ≠ "/ads.txt") →
      initProxyResources cfg "/robots.txt" =
        some ⟨"/robots.txt", "/web/robots.txt"⟩ ∧
      initProxyResources cfg "/sitemap.xml" =
        some ⟨"/sitemap.xml", "/web/sitemap.xml"⟩ ∧
      initProxyResources cfg "/ads.txt" = some ⟨"/ads.txt", "/web/ads.txt"⟩ ∧
      (∀ p, p ≠ "/robots.txt" → p ≠ "/sitemap.xml" → p ≠ "/ads.txt" →
        initProxyResources cfg p = configProxyResources cfg p)) ∧
    (∀ (cfg : List ProxyResource) (p : String) (r : ProxyResource),
      configProxyResources cfg p = some r → initProxyResources cfg p = some r) := by
  constructor
  · intro cfg hno
    have hrob : configProxyResources cfg "/robots.txt" = none :=
      foldl_addProxyResource_not_mem cfg "/robots.txt" proxyMapEmpty
        (fun r hr => (hno r hr).1) rfl
    have hsit : configProxyResources cfg "/sitemap.xml" = none :=
      foldl_addProxyResource_not_mem cfg "/sitemap.xml" proxyMapEmpty
        (fun r hr => (hno r hr).2.1) rfl
    have hads : configProxyResources cfg "/ads.txt" = none :=
      foldl_addProxyResource_not_mem cfg "/ads.txt" proxyMapEmpty
        (fun r hr => (hno r hr).2.2) rfl
    refine ⟨?_, ?_, ?_, ?_⟩
    · unfold initProxyResources
      rw [withDefaultEntry_ne _ _ _ _ (by decide : ("/robots.txt" : String) ≠ "/ads.txt"),
          withDefaultEntry_ne _ _ _ _ (by decide : ("/robots.txt" : String) ≠ "/sitemap.xml")]
      exact withDefaultEntry_none _ _ _ hrob
    · unfold initProxyResources
      rw [withDefaultEntry_ne _ _ _ _ (by decide : ("/sitemap.xml" : String) ≠ "/ads.txt")]
      apply withDefaultEntry_none
      rw [withDefaultEntry_ne _ _ _ _ (by decide : ("/sitemap.xml" : String) ≠ "/robots.txt")]
      exact hsit
    · unfold initProxyResources
      apply withDefaultEntry_none
      rw [withDefaultEntry_ne _ _ _ _ (by decide : ("/ads.txt" : String) ≠ "/sitemap.xml"),
          withDefaultEntry_ne _ _ _ _ (by decide : ("/ads.txt" : String) ≠ "/robots.txt")]
      exact hads
    · intro p hp1 hp2 hp3
      unfold initProxyResources
      rw [withDefaultEntry_ne _ _ _ _ hp3, withDefaultEntry_ne _ _ _ _ hp2,
          withDefaultEntry_ne _ _ _ _ hp1]
  · intro cfg p r hs
    unfold initProxyResources
    exact withDefaultEntry_some _ _ _ _ _
      (withDefaultEntry_some _ _ _ _ _ (withDefaultEntry_some _ _ _ _ _ hs))

/-- Witness for C7: with no explicit defaults configured the three defaults
appear; an explicit `/robots.txt` entry wins over the default. -/
theorem claim_C7_witness :
    initProxyResources [⟨"/custom.txt", "/web/custom.txt"⟩] "/robots.txt" =
      some ⟨"/robots.txt", "/web/robots.txt"⟩ ∧
    initProxyResources [⟨"/robots.txt", "/web/mine.txt"⟩] "/robots.txt" =
      some ⟨"/robots.txt", "/web/mine.txt"⟩ :=
  ⟨(claim_C7.1 [⟨"/custom.txt", "/web/custom.txt"⟩] (by decide)).1,
   claim_C7.2 [⟨"/robots.txt", "/web/mine.txt"⟩] "/robots.txt"
     ⟨"/robots.txt", "/web/mine.txt"⟩ rfl⟩

/-- Claim C9: after init on a handler configured with an all-empty Icon,
Default and Large equal the bundled placeholder PNG URL, Maskable equals
Default, and SVG equals the bundled SVG placeholder URL. -/
theorem claim_C9 :
    initIcon ⟨"", "", "", ""⟩ =
      ⟨placeholderIconPNG, placeholderIconPNG, placeholderIconSVG,
       placeholderIconPNG⟩ := by
  rfl

/-- Claim C4: for a declared proxy path not in the proxy cache, a non-200
upstream status yields a 404 response, the cache is unchanged, and the
upstream status is not propagated. -/
theorem claim_C4 (cache : memoryCache) (resource : ProxyResource)
    (res : upstreamResponse)
    (hmiss : cache.Get resource.Path = none) (hstatus : res.StatusCode ≠ 200) :
    serveProxyResource cache resource (getResult.success res) =
      (emptyResponse 404, cache, true) := by
  unfold serveProxyResource
  rw [hmiss]
  simp [hstatus]

/-- Witness for C4: a simulated 503 upstream produces a 404 and stores
nothing. -/
theorem claim_C4_witness :
    memoryCache.Get memoryCache.empty "/robots.txt" = none ∧
    (503 : Nat) ≠ 200 ∧
    serveProxyResource memoryCache.empty ⟨"/robots.txt", "/web/robots.txt"⟩
        (getResult.success ⟨503, "text/plain", "", some [104]⟩) =
      (emptyResponse 404, memoryCache.empty, true) :=
  ⟨rfl, by decide,
   claim_C4 memoryCache.empty ⟨"/robots.txt", "/web/robots.txt"⟩
     ⟨503, "text/plain", "", some [104]⟩ rfl (by decide)⟩

/-- Claim C5: for a declared proxy path, a 200 upstream with body B yields a
200 response with body B and stores a cache item built from the upstream
content-type, content-encoding and body; a second request for the same path
is served from the cache with the same bytes without a second upstream
fetch. -/
theorem claim_C5 (cache : memoryCache) (resource : ProxyResource)
    (res : upstreamResponse) (body : List Nat)
    (hmiss : cache.Get resource.Path = none)
    (hstatus : res.StatusCode = 200) (hbody : res.BodyRead = some body) :
    serveProxyResource cache resource (getResult.success res) =
      (serveCachedItem ⟨resource.Path, res.ContentType, res.ContentEncoding, body⟩,
       cache.Set ⟨resource.Path, res.ContentType, res.ContentEncoding, body⟩,
       true) ∧
    (serveCachedItem
      ⟨resource.Path, res.ContentType, res.ContentEncoding, body⟩).status = 200 ∧
    (serveCachedItem
      ⟨resource.Path, res.ContentType, res.ContentEncoding, body⟩).body = body ∧
    ∀ fetch2 : getResult,
      serveProxyResource
          (cache.Set ⟨resource.Path, res.ContentType, res.ContentEncoding, body⟩)
          resource fetch2 =
        (serveCachedItem ⟨resource.Path, res.ContentType, res.ContentEncoding, body⟩,
         cache.Set ⟨resource.Path, res.ContentType, res.ContentEncoding, body⟩,
         false) := by
  refine ⟨?_, rfl, rfl, ?_⟩
  · unfold serveProxyResource
    rw [hmiss]
    simp [hstatus, hbody]
  · intro fetch2
    have hhit : (cache.Set
        ⟨resource.Path, res.ContentType, res.ContentEncoding, body⟩).Get
        resource.Path =
        some ⟨resource.Path, res.ContentType, res.ContentEncoding, body⟩ := by
      simp [memoryCache.Get, memoryCache.Set]
    unfold serveProxyResource
    rw [hhit]

/-- Witness for C5: a simulated 200 upstream with body [66] is served and
cached, and the second request is served from the cache without a fetch. -/
theorem claim_C5_witness :
    serveProxyResource memoryCache.empty ⟨"/robots.txt", "/web/robots.txt"⟩
        (getResult.success ⟨200, "text/plain", "", some [66]⟩) =
      (serveCachedItem ⟨"/robots.txt", "text/plain", "", [66]⟩,
       memoryCache.empty.Set ⟨"/robots.txt", "text/plain", "", [66]⟩, true) ∧
    serveProxyResource
        (memoryCache.empty.Set ⟨"/robots.txt", "text/plain", "", [66]⟩)
        ⟨"/robots.txt", "/web/robots.txt"⟩ getResult.failure =
      (serveCachedItem ⟨"/robots.txt", "text/plain", "", [66]⟩,
       memoryCache.empty.Set ⟨"/robots.txt", "text/plain", "", [66]⟩, false) := by
  have h := claim_C5 memoryCache.empty ⟨"/robots.txt", "/web/robots.txt"⟩
    ⟨200, "text/plain", "", some [66]⟩ [66] rfl rfl rfl
  exact ⟨h.1, h.2.2.2 getResult.failure⟩

/-- Claim C8: parseHTTPResource splits on spaces, trims and lowercases each
token, classifies bare crossorigin as policy "true", crossorigin=value as the
explicit value, defer/async as the loading mode, and any other non-empty
token as the URL with the last one winning; in particular the quoted scenario
holds. -/
theorem claim_C8 :
    parseHTTPResource "https://x.test/a.js crossorigin async" =
      ⟨"https://x.test/a.js", "async", "true"⟩ ∧
    parseHTTPResource "/img/x.png crossorigin=anonymous" =
      ⟨"/img/x.png", "", "anonymous"⟩ ∧
    (∀ ts : List String,
      (parseHTTPResourceTokens (ts ++ ["crossorigin"])).CrossOrigin = "true") ∧
    (∀ ts : List String,
      (parseHTTPResourceTokens (ts ++ ["defer"])).LoadingMode = "defer") ∧
    (∀ ts : List String,
      (parseHTTPResourceTokens (ts ++ ["async"])).LoadingMode = "async") ∧
    (∀ (ts : List String) (u : String),
      strTrim u ≠ "" →
      strToLower (strTrim u) ≠ "crossorigin" →
      strHasPre (strToLower (strTrim u)) "crossorigin=" = false →
      strToLower (strTrim u) ≠ "defer" →
      strToLower (strTrim u) ≠ "async" →
      (parseHTTPResourceTokens (ts ++ [u])).URL = strToLower (strTrim u)) := by
  refine ⟨by decide, by decide, ?_, ?_, ?_, ?_⟩
  · intro ts
    unfold parseHTTPResourceTokens
    rw [List.foldl_append]
    rfl
  · intro ts
    unfold parseHTTPResourceTokens
    rw [List.foldl_append]
    rfl
  · intro ts
    unfold parseHTTPResourceTokens
    rw [List.foldl_append]
    rfl
  · intro ts u h1 h2 h3 h4 h5
    unfold parseHTTPResourceTokens
    rw [List.foldl_append]
    simp only [List.foldl_cons, List.foldl_nil]
    unfold parseHTTPResourceToken
    simp only [h1, h2, h3, h4, h5, if_neg, ite_false, Bool.false_eq_true]

/-- Witness for C8: the last-token-wins arm applied to a token needing both
trimming and lowercasing. -/
theorem claim_C8_witness :
    (parseHTTPResourceTokens (["/a.js"] ++ [" B.js "])).URL =
      strToLower (strTrim " B.js ") :=
  claim_C8.2.2.2.2.2 ["/a.js"] " B.js " (by decide) (by decide) (by decide)
    (by decide) (by decide)

/-! ### Determinism of `makeAppWorkerJS` (claim C3) -/

theorem insertionSort_strLeR_eq_of_perm {l1 l2 : List String}
    (h : l1.Perm l2) :
    List.insertionSort strLeR l1 = List.insertionSort strLeR l2 :=
  List.eq_of_perm_of_sorted
    ((List.perm_insertionSort strLeR l1).trans
      (h.trans (List.perm_insertionSort strLeR l2).symm))
    (List.sorted_insertionSort strLeR l1)
    (List.sorted_insertionSort strLeR l2)

/-- Claim C3: service-worker generation is deterministic — for the same
handler configuration and the same resolver, any two iteration orders of the
deduplicated asset URL set produce byte-identical output, because each member
is resolved and the resolved list is sorted lexicographically before template
substitution. -/
theorem claim_C3 (tmpl version : String) (resolve : String → String)
    (icon : Icon) (styles fonts scripts cacheable : List String)
    (l1 l2 : List String)
    (h1 : l1.Perm (workerResourceSet icon styles fonts scripts cacheable))
    (h2 : l2.Perm (workerResourceSet icon styles fonts scripts cacheable)) :
    makeAppWorkerJS tmpl version resolve l1 =
      makeAppWorkerJS tmpl version resolve l2 := by
  unfold makeAppWorkerJS
  rw [insertionSort_strLeR_eq_of_perm ((h1.trans h2.symm).map resolve)]

/-- Witness for C3: two opposite enumeration orders of a concrete resource
set yield the same worker script. -/
theorem claim_C3_witness :
    makeAppWorkerJS "w" "v1" (fun p => p)
        (workerResourceSet ⟨"/i.png", "/il.png", "/i.svg", "/im.png"⟩
          ["/main.css crossorigin"] [] ["/a2.js async"] []) =
      makeAppWorkerJS "w" "v1" (fun p => p)
        (workerResourceSet ⟨"/i.png", "/il.png", "/i.svg", "/im.png"⟩
          ["/main.css crossorigin"] [] ["/a2.js async"] []).reverse :=
  claim_C3 "w" "v1" (fun p => p) ⟨"/i.png", "/il.png", "/i.svg", "/im.png"⟩
    ["/main.css crossorigin"] [] ["/a2.js async"] [] _ _
    (List.Perm.refl _) (by decide)

/-! ### Version-prefix stripping (claim C10) -/

theorem stripVersionPath_exact_aux (v : String) :
    strHasPre ("/" ++ v) ("/" ++ v ++ "/") = false := by
  by_contra h
  have h' : strHasPre ("/" ++ v) ("/" ++ v ++ "/") = true := by
    cases hb : strHasPre ("/" ++ v) ("/" ++ v ++ "/") with
    | false => exact absurd hb h
    | true => rfl
  unfold strHasPre at h'
  rw [List.isPrefixOf_iff_prefix] at h'
  have hlen := h'.length_le
  rw [String.data_append] at hlen
  rw [List.length_append] at hlen
  have : ("/" : String).data.length = 1 := rfl
  omega

/-- Claim C10: version-prefix stripping fires only when the request path
strictly begins with "/" + Version + "/" (trailing slash included); a path
that is exactly "/" + Version is not stripped and is dispatched unchanged as
an ordinary path. -/
theorem claim_C10 :
    (∀ v rest : String,
      stripVersionPath v ("/" ++ v ++ "/" ++ rest) = "/" ++ rest) ∧
    (∀ v path : String, strHasPre path ("/" ++ v ++ "/") = false →
      stripVersionPath v path = path) ∧
    (∀ v : String, stripVersionPath v ("/" ++ v) = "/" ++ v) ∧
    (∀ (h : HandlerState) (staticServe pageServe : String → HTTPResponse)
       (upstream : String → getResult) (resolve : String → String)
       (inm : String), inm ≠ h.etag →
      serveHTTPCore h staticServe pageServe upstream resolve
          ⟨"/" ++ h.version, inm⟩ =
        dispatchPath h staticServe pageServe upstream resolve
          ("/" ++ h.version) ("/" ++ h.version)) := by
  have hdata : ∀ v rest : String,
      ("/" ++ v ++ "/" ++ rest).data = ("/" ++ v).data ++ ("/" ++ rest).data := by
    intro v rest
    rw [String.data_append, String.data_append, String.data_append,
        String.data_append, List.append_assoc]
  have hstrict : ∀ v rest : String,
      stripVersionPath v ("/" ++ v ++ "/" ++ rest) = "/" ++ rest := by
    intro v rest
    unfold stripVersionPath
    have hpre : strHasPre ("/" ++ v ++ "/" ++ rest) ("/" ++ v ++ "/") = true := by
      unfold strHasPre
      rw [List.isPrefixOf_iff_prefix, String.data_append]
      exact List.prefix_append _ _
    rw [if_pos hpre]
    unfold strTrimPre
    have hpre2 : strHasPre ("/" ++ v ++ "/" ++ rest) ("/" ++ v) = true := by
      unfold strHasPre
      rw [List.isPrefixOf_iff_prefix, hdata v rest]
      exact List.prefix_append _ _
    rw [if_pos hpre2]
    apply String.ext
    show ("/" ++ v ++ "/" ++ rest).data.drop ("/" ++ v).data.length =
      ("/" ++ rest).data
    rw [hdata v rest]
    exact List.drop_left _ _
  have hnofire : ∀ v path : String,
      strHasPre path ("/" ++ v ++ "/") = false → stripVersionPath v path = path := by
    intro v path hq
    unfold stripVersionPath
    rw [hq]
    simp
  refine ⟨hstrict, hnofire, ?_, ?_⟩
  · intro v
    exact hnofire v ("/" ++ v) (stripVersionPath_exact_aux v)
  · intro h staticServe pageServe upstream resolve inm hinm
    unfold serveHTTPCore
    rw [if_neg hinm]
    have : stripVersionPath h.version ("/" ++ h.version) = "/" ++ h.version :=
      hnofire h.version ("/" ++ h.version) (stripVersionPath_exact_aux h.version)
    rw [this]

/-- Witness for C10: concrete instances of the no-strip and
dispatch-unchanged arms. -/
theorem claim_C10_witness :
    stripVersionPath "1.2.3" "/1.2.3" = "/1.2.3" ∧
    serveHTTPCore
        ⟨"1.2.3", memoryCache.empty, initProxyResources [], memoryCache.empty,
         fun _ => none, false, fun _ => false⟩
        (fun _ => emptyResponse 200) (fun _ => emptyResponse 200)
        (fun _ => getResult.failure) (fun p => p) ⟨"/1.2.3", "stale"⟩ =
      dispatchPath
        ⟨"1.2.3", memoryCache.empty, initProxyResources [], memoryCache.empty,
         fun _ => none, false, fun _ => false⟩
        (fun _ => emptyResponse 200) (fun _ => emptyResponse 200)
        (fun _ => getResult.failure) (fun p => p) "/1.2.3" "/1.2.3" :=
  ⟨claim_C10.2.1 "1.2.3" "/1.2.3" (by decide),
   claim_C10.2.2.2
     ⟨"1.2.3", memoryCache.empty, initProxyResources [], memoryCache.empty,
      fun _ => none, false, fun _ => false⟩
     (fun _ => emptyResponse 200) (fun _ => emptyResponse 200)
     (fun _ => getResult.failure) (fun p => p) "stale" (by decide)⟩

/-! ### ETag semantics (claim C2) -/

/-- Counterexample to claim C2 as stated: after init, a request for
`/app.wasm` with a non-matching If-None-Match on a handler whose resolver is
not a file server receives 404, not a full 200 response. -/
theorem claim_C2_counterexample :
    ("stale" : String) ≠
      HandlerState.etag
        ⟨"v", memoryCache.empty, initProxyResources [], memoryCache.empty,
         fun _ => none, false, fun _ => false⟩ ∧
    (serveHTTP
        ⟨"v", memoryCache.empty, initProxyResources [], memoryCache.empty,
         fun _ => none, false, fun _ => false⟩
        (fun _ => emptyResponse 200) (fun _ => emptyResponse 200)
        (fun _ => getResult.failure) (fun p => p)
        ⟨"/app.wasm", "stale"⟩).1.status = 404 := by
  constructor
  · decide
  · rfl

/-- Claim C2 (amended): a request whose If-None-Match equals the handler ETag
receives 304 with no body and no further dispatch; any other value does not
short-circuit — dispatch proceeds, and in particular a request that resolves
to a cached PWA resource receives a full 200 response with the cached
bytes. -/
theorem claim_C2 (h : HandlerState)
    (staticServe pageServe : String → HTTPResponse)
    (upstream : String → getResult) (resolve : String → String) (r : Request) :
    (r.ifNoneMatch = h.etag →
      serveHTTP h staticServe pageServe upstream resolve r =
        ({ emptyResponse 304 with
            cacheControl := some "no-cache"
            headerETag := some h.etag }, h.cachedProxyResources)) ∧
    (r.ifNoneMatch ≠ h.etag → ∀ i : cacheItem,
      (h.resolverIsHandler &&
        strHasPre (stripVersionPath h.version r.path) "/web/") = false →
      aliasPath (stripVersionPath h.version r.path) ≠ "/app.wasm" →
      aliasPath (stripVersionPath h.version r.path) ≠ "/goapp.wasm" →
      h.pwaResources.Get (aliasPath (stripVersionPath h.version r.path)) = some i →
      (serveHTTP h staticServe pageServe upstream resolve r).1.status = 200 ∧
      (serveHTTP h staticServe pageServe upstream resolve r).1.body = i.Body) := by
  constructor
  · intro hm
    unfold serveHTTP serveHTTPCore
    rw [if_pos hm]
  · intro hm i hweb hw1 hw2 hget
    unfold serveHTTP serveHTTPCore dispatchPath
    rw [if_neg hm, hweb]
    simp only [Bool.false_eq_true, if_false]
    rw [if_neg (by simp [hw1, hw2])]
    rw [hget]
    exact ⟨rfl, rfl⟩

/-- Witness for C2 (amended): a matching If-None-Match gets 304; a stale one
on a cached PWA path gets 200 with the cached bytes. -/
theorem claim_C2_witness :
    (serveHTTP
        ⟨"v", (fun p => if p = "/app.css" then
            some ⟨"/app.css", "text/css", "", [97]⟩ else none),
         initProxyResources [], memoryCache.empty, fun _ => none, false,
         fun _ => false⟩
        (fun _ => emptyResponse 200) (fun _ => emptyResponse 200)
        (fun _ => getResult.failure) (fun p => p)
        ⟨"/", "\"v\""⟩).1.status = 304 ∧
    (serveHTTP
        ⟨"v", (fun p => if p = "/app.css" then
            some ⟨"/app.css", "text/css", "", [97]⟩ else none),
         initProxyResources [], memoryCache.empty, fun _ => none, false,
         fun _ => false⟩
        (fun _ => emptyResponse 200) (fun _ => emptyResponse 200)
        (fun _ => getResult.failure) (fun p => p)
        ⟨"/app.css", "stale"⟩).1.status = 200 := by
  constructor
  · rw [(claim_C2
      ⟨"v", (fun p => if p = "/app.css" then
          some ⟨"/app.css", "text/css", "", [97]⟩ else none),
       initProxyResources [], memoryCache.empty, fun _ => none, false,
       fun _ => false⟩
      (fun _ => emptyResponse 200) (fun _ => emptyResponse 200)
      (fun _ => getResult.failure) (fun p => p) ⟨"/", "\"v\""⟩).1 (by decide)]
    rfl
  · exact ((claim_C2
      ⟨"v", (fun p => if p = "/app.css" then
          some ⟨"/app.css", "text/css", "", [97]⟩ else none),
       initProxyResources [], memoryCache.empty, fun _ => none, false,
       fun _ => false⟩
      (fun _ => emptyResponse 200) (fun _ => emptyResponse 200)
      (fun _ => getResult.failure) (fun p => p) ⟨"/app.css", "stale"⟩).2
      (by decide) ⟨"/app.css", "text/css", "", [97]⟩ (by decide) (by decide)
      (by decide) (by decide)).1

end GoApp
